import Mathlib

/-!
# Month-grid calculator of nmandrus1/opencal: a verified shallow embedding

This file embeds the calendar date arithmetic of the repository's two
client-side calendar scripts in Lean 4 and proves the testable properties
stated in the specification against that embedding.

The source code is JavaScript.  The date computations all go through the
built-in `Date` constructor `new Date(year, month, day)` and its accessors
`getDay`, `getDate`, `getMonth`, `getFullYear`.  Per ECMA-262 these are
specified over the proleptic Gregorian calendar: the constructor first maps
two-digit years `0..99` to `1900..1999`, carries the (arbitrary integer)
month argument into the year with floor division, and converts the civil
triple to a day number relative to the epoch 1970-01-01; the accessors
convert that day number back to civil fields.  We embed exactly that
arithmetic (the day-number conversions use the standard civil-days
algorithm, which agrees with ECMA-262's `MakeDay`/`MonthFromTime`/
`DateFromTime` on every input).  `Int./` and `Int.%` in Lean are Euclidean
division and remainder, which for the positive constant divisors used below
coincide with ECMA-262's `floor` division and nonnegative `modulo`.

The main model (`calendar`, `computeGrid`, `showCalendar`) works on exact
integer day numbers; ECMA-262's `TimeClip` range limit (±8.64e15 ms, i.e.
±100 000 000 days) and the resulting `NaN` propagation are embedded
separately and faithfully in `calendarN`, which is the model used for the
error-handling claim.
-/

/-- Days in one 400-year Gregorian cycle. -/
def daysPer400Years : Int := 146097

/-- Civil (proleptic Gregorian) date: year, month `1..12`, day `1..31`. -/
structure CivilDate where
  year : Int
  month : Int
  day : Int
deriving Repr, DecidableEq

/-- Day number relative to 1970-01-01 of the civil date `(y, m, d)` with
month `m` in `1..12` (day `d` arbitrary: day 0 is the last day of the
previous month, etc.).  This is the standard civil-days algorithm; it
computes exactly ECMA-262's `MakeDay(y, m-1, d)`. -/
def daysFromCivil (y m d : Int) : Int :=
  let yAdj := if m ≤ 2 then y - 1 else y
  let era := yAdj / 400
  let yoe := yAdj % 400
  let mp := (m + 9) % 12
  let doy := (153 * mp + 2) / 5 + d - 1
  let doe := yoe * 365 + yoe / 4 - yoe / 100 + doy
  era * daysPer400Years + doe - 719468

/-- Civil date of the day number `z` (relative to 1970-01-01).  Standard
civil-days inverse; computes exactly ECMA-262's `YearFromTime`,
`MonthFromTime + 1` and `DateFromTime` for the day `z`. -/
def civilFromDays (z : Int) : CivilDate :=
  let z2 := z + 719468
  let era := z2 / daysPer400Years
  let doe := z2 % daysPer400Years
  let yoe := (doe - doe / 1460 + doe / 36524 - doe / 146096) / 365
  let y := yoe + era * 400
  let doy := doe - (365 * yoe + yoe / 4 - yoe / 100)
  let mp := (5 * doy + 2) / 153
  let d := doy - (153 * mp + 2) / 5 + 1
  let m := if mp < 10 then mp + 3 else mp - 9
  ⟨if m ≤ 2 then y + 1 else y, m, d⟩

/-- ECMA-262 `Date(year, month, day)` quirk: integer years `0..99` are
interpreted as `1900..1999`. -/
def twoDigitYearFix (y : Int) : Int :=
  if 0 ≤ y ∧ y ≤ 99 then 1900 + y else y

/-- ECMA-262 `MakeDay` applied after the two-digit-year fix: day number of
`new Date(y, m, d)` (months carried into the year by floor division). -/
def makeDay (y m d : Int) : Int :=
  daysFromCivil (y + m / 12) (m % 12 + 1) d

/-- The result of `new Date(y, m, d)`, represented by its day number. -/
structure JSDate where
  epochDays : Int
deriving Repr, DecidableEq

/-- `new Date(y, m, d)` (ignoring the `TimeClip` range limit, which is
modelled separately in `newDateN`). -/
def newDate (y m d : Int) : JSDate :=
  ⟨makeDay (twoDigitYearFix y) m d⟩

/-- `Date.prototype.getDay`: weekday `0 = Sunday .. 6 = Saturday`
(1970-01-01 was a Thursday, weekday 4). -/
def JSDate.getDay (t : JSDate) : Int := (t.epochDays + 4) % 7

/-- `Date.prototype.getDate`: day of month `1..31`. -/
def JSDate.getDate (t : JSDate) : Int := (civilFromDays t.epochDays).day

/-- `Date.prototype.getMonth`: month `0..11`. -/
def JSDate.getMonth (t : JSDate) : Int := (civilFromDays t.epochDays).month - 1

/-- `Date.prototype.getFullYear`. -/
def JSDate.getFullYear (t : JSDate) : Int := (civilFromDays t.epochDays).year

/-- The clock reading `new Date()` (the reference date "today"), given by
its civil fields as the accessors return them: `year = getFullYear()`,
`month = getMonth()` in `0..11`, `day = getDate()` in `1..31`. -/
structure Today where
  year : Int
  month : Int
  day : Int
deriving Repr, DecidableEq

/-- The source's `months` array of month names. -/
def months : List String :=
  ["January", "February", "March", "April", "May", "June", "July",
   "August", "September", "October", "November", "December"]

/-- `months[m]` interpolated into a template literal: out-of-range
indexing yields `undefined`, which prints as `"undefined"`. -/
def monthName (m : Int) : String :=
  if 0 ≤ m ∧ m < 12 then months.getD m.toNat "undefined" else "undefined"

/-- One rendered grid cell (`<li>` of the `calendar` implementation):
its day-number label, whether it belongs to the requested month (the
source marks borrowed cells with class `"inactive"`), and whether it is
rendered as today (class `"active"`). -/
structure DayCell where
  dayNumber : Int
  isCurrentMonth : Bool
  isToday : Bool
deriving Repr, DecidableEq

/-- One full rendering pass of the `calendar` implementation: the
`"<MonthName> <Year>"` header text and the ordered cell list. -/
structure MonthGrid where
  label : String
  cells : List DayCell
deriving Repr, DecidableEq

/-- `firstDayofMonth` of the source: `new Date(currYear, currMonth, 1).getDay()`. -/
def firstDayofMonth (y m : Int) : Int := (newDate y m 1).getDay

/-- `lastDateofMonth` of the source: `new Date(currYear, currMonth + 1, 0).getDate()`. -/
def lastDateofMonth (y m : Int) : Int := (newDate y (m + 1) 0).getDate

/-- `lastDayofMonth` of the source:
`new Date(currYear, currMonth, lastDateofMonth).getDay()`. -/
def lastDayofMonth (y m : Int) : Int := (newDate y m (lastDateofMonth y m)).getDay

/-- `lastDateofLastMonth` of the source: `new Date(currYear, currMonth, 0).getDate()`. -/
def lastDateofLastMonth (y m : Int) : Int := (newDate y m 0).getDate

/-- First loop of `calendar()`: `for (i = firstDayofMonth; i > 0; i--)`
emits an inactive cell labelled `lastDateofLastMonth - i + 1`, so the
labels run from `lastDateofLastMonth - firstDayofMonth + 1` up to
`lastDateofLastMonth`. -/
def calendarLeading (y m : Int) : List DayCell :=
  (List.range (firstDayofMonth y m).toNat).map fun (k : Nat) =>
    ⟨lastDateofLastMonth y m - firstDayofMonth y m + 1 + (k : Int), false, false⟩

/-- Second loop of `calendar()`: `for (i = 1; i <= lastDateofMonth; i++)`
emits a current-month cell labelled `i`, with class `"active"` exactly when
`i === date.getDate() && currMonth === new Date().getMonth() && currYear
=== new Date().getFullYear()`.  `dateDay` is `date.getDate()` of the
module-level `date` variable and `now` is the clock reading `new Date()`. -/
def calendarActive (y m dateDay : Int) (now : Today) : List DayCell :=
  (List.range (lastDateofMonth y m).toNat).map fun (k : Nat) =>
    ⟨(k : Int) + 1, true,
      ((k : Int) + 1 == dateDay && m == now.month && y == now.year)⟩

/-- Third loop of `calendar()`: `for (i = lastDayofMonth; i < 6; i++)`
emits an inactive cell labelled `i - lastDayofMonth + 1`. -/
def calendarTrailing (y m : Int) : List DayCell :=
  (List.range (6 - lastDayofMonth y m).toNat).map fun (k : Nat) =>
    ⟨(k : Int) + 1, false, false⟩

/-- The `calendar` arrow function of the source (the icon-driven
implementation): header text `months[currMonth] + " " + currYear` and the
three concatenated cell runs. -/
def calendar (y m dateDay : Int) (now : Today) : MonthGrid :=
  ⟨monthName m ++ " " ++ toString y,
   calendarLeading y m ++ (calendarActive y m dateDay now ++ calendarTrailing y m)⟩

/-- The grid computation as the source actually invokes it (the prev/next
icon handler): when the month has left `0..11` it is first normalized by a
`Date` round trip — `date = new Date(currYear, currMonth, new
Date().getDate()); currYear = date.getFullYear(); currMonth =
date.getMonth();` — and `calendar()` then reads `date.getDate()` for the
today-highlight day; for an in-range month the handler resets `date = new
Date()`, so `calendar()` reads today's own day. -/
def computeGrid (year month : Int) (today : Today) : MonthGrid :=
  if month < 0 ∨ 11 < month then
    let d := newDate year month today.day
    calendar d.getFullYear d.getMonth d.getDate today
  else
    calendar year month today.day today

/-- `Modelled from the spec:` the table-driven implementation calls a
helper `daysInMonth(month, year)` that is not present under `src/` (only
its caller `showCalendar` is).  The spec gives the month's day count as
28/29/30/31 per standard calendar rules including leap-year February
(leap iff divisible by 4 and not by 100, or divisible by 400); months are
zero-based as in the caller. -/
def daysInMonth (month year : Int) : Int :=
  if month = 1 then (if year % 4 = 0 ∧ (year % 100 ≠ 0 ∨ year % 400 = 0) then 29 else 28)
  else if month = 3 ∨ month = 5 ∨ month = 8 ∨ month = 10 then 30
  else 31

/-- One `<td>` cell of the table-driven `showCalendar` implementation: the
leading cells of the first row carry an empty text node (no day number),
date cells carry the day number and are highlighted (`"selected"`) when
they equal the reference date `today`. -/
structure TCell where
  content : Option Int
  selected : Bool
deriving Repr, DecidableEq

/-- The day-cell sequence produced by the source's `showCalendar(month,
year)`, rows flattened in document order: `firstDay = new Date(year,
month).getDay()` empty cells (emitted only in row 0, for `j < firstDay`),
then one date cell per day `1..daysInMonth(month, year)` (the inner loop
`break`s once `date > daysInMonth(month, year)`, and `firstDay +
daysInMonth ≤ 37 < 42` so the six rows are never exhausted first).  The
`today` global read by `showCalendar` is declared nowhere under `src/` and
is passed here as a parameter. -/
def showCalendar (month year : Int) (today : Today) : List TCell :=
  ((List.range (newDate year month 1).getDay.toNat).map fun _ => ⟨none, false⟩) ++
  ((List.range (daysInMonth month year).toNat).map fun (k : Nat) =>
    ⟨some ((k : Int) + 1),
     ((k : Int) + 1 == today.day && year == today.year && month == today.month)⟩)

/-!
## The range-faithful (`NaN`-aware) model

ECMA-262 `TimeClip` turns any time value more than 8.64e15 milliseconds
(that is, 100 000 000 days) away from the epoch into an Invalid Date; every
field accessor of an Invalid Date returns `NaN`, `NaN` comparisons are
false, and a `for` loop whose bound is `NaN` runs zero iterations.  `none`
models `NaN` below.  This model is used for the error-handling claim; the
`Int` model above is the specialization to representable dates.
-/

/-- ECMA-262 `TimeClip` measured in days: day numbers beyond
±100 000 000 days (±8.64e15 ms) give an Invalid Date (`none`). -/
def timeClipDays (z : Int) : Option Int :=
  if -100000000 ≤ z ∧ z ≤ 100000000 then some z else none

/-- `new Date(y, m, d)` with the `TimeClip` limit; the day argument may
itself be `NaN` (as in `new Date(currYear, currMonth, lastDateofMonth)`
when `lastDateofMonth` is `NaN`), which also yields an Invalid Date. -/
def newDateN (y m : Int) (d : Option Int) : Option Int :=
  d.bind fun dd => timeClipDays (makeDay (twoDigitYearFix y) m dd)

/-- `getDate()` of a possibly-Invalid Date. -/
def getDateN (t : Option Int) : Option Int := t.map fun z => (civilFromDays z).day

/-- `getDay()` of a possibly-Invalid Date. -/
def getDayN (t : Option Int) : Option Int := t.map fun z => (z + 4) % 7

/-- Grid cell of the `NaN`-aware model: the label `NaN` (printed `"NaN"`)
is possible for leading cells when `lastDateofLastMonth` is `NaN`. -/
structure DayCellN where
  dayNumber : Option Int
  isCurrentMonth : Bool
  isToday : Bool
deriving Repr, DecidableEq

/-- Grid of the `NaN`-aware model. -/
structure MonthGridN where
  label : String
  cells : List DayCellN
deriving Repr, DecidableEq

/-- `firstDayofMonth` with the `TimeClip` limit. -/
def firstDayofMonthN (y m : Int) : Option Int := getDayN (newDateN y m (some 1))

/-- `lastDateofMonth` with the `TimeClip` limit. -/
def lastDateofMonthN (y m : Int) : Option Int := getDateN (newDateN y (m + 1) (some 0))

/-- `lastDayofMonth` with the `TimeClip` limit (its `Date` receives the
possibly-`NaN` `lastDateofMonth` as day argument). -/
def lastDayofMonthN (y m : Int) : Option Int := getDayN (newDateN y m (lastDateofMonthN y m))

/-- `lastDateofLastMonth` with the `TimeClip` limit. -/
def lastDateofLastMonthN (y m : Int) : Option Int := getDateN (newDateN y m (some 0))

/-- First loop of `calendar()` in the `NaN`-aware model: a `NaN` loop bound
runs zero iterations; a `NaN` `lastDateofLastMonth` makes every emitted
label `NaN`. -/
def calendarLeadingN (y m : Int) : List DayCellN :=
  match firstDayofMonthN y m with
  | none => []
  | some fv =>
    (List.range fv.toNat).map fun (k : Nat) =>
      ⟨(lastDateofLastMonthN y m).map fun p => p - fv + 1 + (k : Int), false, false⟩

/-- Second loop of `calendar()` in the `NaN`-aware model: a `NaN`
`lastDateofMonth` runs zero iterations; `i === NaN` is false. -/
def calendarActiveN (y m : Int) (dateDay : Option Int) (now : Today) : List DayCellN :=
  match lastDateofMonthN y m with
  | none => []
  | some lv =>
    (List.range lv.toNat).map fun (k : Nat) =>
      ⟨some ((k : Int) + 1), true,
       (match dateDay with
        | none => false
        | some dd => ((k : Int) + 1 == dd && m == now.month && y == now.year))⟩

/-- Third loop of `calendar()` in the `NaN`-aware model: `NaN < 6` is
false, so a `NaN` `lastDayofMonth` runs zero iterations. -/
def calendarTrailingN (y m : Int) : List DayCellN :=
  match lastDayofMonthN y m with
  | none => []
  | some lv => (List.range (6 - lv).toNat).map fun (k : Nat) => ⟨some ((k : Int) + 1), false, false⟩

/-- The `calendar` arrow function in the `NaN`-aware model. -/
def calendarN (y m : Int) (dateDay : Option Int) (now : Today) : MonthGridN :=
  ⟨monthName m ++ " " ++ toString y,
   calendarLeadingN y m ++ (calendarActiveN y m dateDay now ++ calendarTrailingN y m)⟩

/-!
## Arithmetic facts about the date conversions

The date arithmetic is periodic with period 400 years = 146097 days; the
month-length correctness fact `lastDate_all` is reduced by that
periodicity to a finite kernel check over one 400-year cycle.
-/

theorem daysFromCivil_add_400 (y m d : Int) :
    daysFromCivil (y + 400) m d = daysFromCivil y m d + daysPer400Years := by
  by_cases h : m ≤ 2 <;>
    simp only [daysFromCivil, daysPer400Years, h, if_true, if_false] <;> omega

theorem civilFromDays_day_add (z : Int) :
    (civilFromDays (z + daysPer400Years)).day = (civilFromDays z).day := by
  have hdoe : (z + daysPer400Years + 719468) % daysPer400Years =
      (z + 719468) % daysPer400Years := by
    simp only [daysPer400Years]; omega
  simp only [civilFromDays]
  rw [hdoe]

theorem makeDay_add_400 (y m d : Int) :
    makeDay (y + 400) m d = makeDay y m d + daysPer400Years := by
  have h : y + 400 + m / 12 = (y + m / 12) + 400 := by ring
  simp only [makeDay, h, daysFromCivil_add_400]

/-- `MakeDay` is linear in its day argument. -/
theorem makeDay_linear (y m d : Int) : makeDay y m d = makeDay y m 1 + (d - 1) := by
  by_cases h : m % 12 + 1 ≤ 2 <;>
    simp only [makeDay, daysFromCivil, h, if_true, if_false] <;> omega

theorem daysInMonth_add_400 (m y : Int) : daysInMonth m (y + 400) = daysInMonth m y := by
  have h : ((y + 400) % 4 = 0 ∧ ((y + 400) % 100 ≠ 0 ∨ (y + 400) % 400 = 0)) ↔
      (y % 4 = 0 ∧ (y % 100 ≠ 0 ∨ y % 400 = 0)) := by omega
  simp only [daysInMonth, h]

theorem daysInMonth_bounds (m y : Int) : 28 ≤ daysInMonth m y ∧ daysInMonth m y ≤ 31 := by
  simp only [daysInMonth]
  split <;> [skip; split] <;> [split; omega; omega] <;> omega

theorem makeDay_sub_400 (y m d : Int) :
    makeDay (y - 400) m d = makeDay y m d - daysPer400Years := by
  have h := makeDay_add_400 (y - 400) m d
  rw [sub_add_cancel] at h
  omega

theorem civilFromDays_day_sub (z : Int) :
    (civilFromDays (z - daysPer400Years)).day = (civilFromDays z).day := by
  have h := civilFromDays_day_add (z - daysPer400Years)
  rw [sub_add_cancel] at h
  omega

theorem daysInMonth_sub_400 (m y : Int) : daysInMonth m (y - 400) = daysInMonth m y := by
  have h := daysInMonth_add_400 m (y - 400)
  rw [sub_add_cancel] at h
  omega

set_option maxHeartbeats 4000000 in
set_option maxRecDepth 100000 in
/-- Month-length correctness over one 400-year cycle, by kernel
computation. -/
theorem lastDate_base : ∀ r : Nat, r < 400 → ∀ m : Nat, m < 12 →
    (civilFromDays (makeDay (r : Int) ((m : Int) + 1) 0)).day = daysInMonth (m : Int) (r : Int) := by
  decide

/-- `new Date(Y, m + 1, 0).getDate()` is the standard-rules day count of
month `m` of year `Y`, for every integer `Y` (no two-digit fix here: `Y`
is the effective year). -/
theorem lastDate_all (Y m : Int) (h0 : 0 ≤ m) (h1 : m ≤ 11) :
    (civilFromDays (makeDay Y (m + 1) 0)).day = daysInMonth m Y := by
  obtain ⟨q, r, hr0, hr1, hY⟩ : ∃ q r : Int, 0 ≤ r ∧ r < 400 ∧ Y = r + 400 * q :=
    ⟨Y / 400, Y % 400, by omega, by omega, by omega⟩
  subst hY
  induction q using Int.induction_on with
  | hz =>
    have hb := lastDate_base r.toNat (by omega) m.toNat (by omega)
    rw [Int.toNat_of_nonneg hr0, Int.toNat_of_nonneg h0] at hb
    simpa using hb
  | hp i ih =>
    have hstep : r + 400 * ((i : Int) + 1) = (r + 400 * (i : Int)) + 400 := by ring
    rw [hstep, makeDay_add_400, civilFromDays_day_add, daysInMonth_add_400]
    exact ih
  | hn i ih =>
    have hstep : r + 400 * (-(i : Int) - 1) = (r + 400 * (-(i : Int))) - 400 := by ring
    rw [hstep, makeDay_sub_400, civilFromDays_day_sub, daysInMonth_sub_400]
    exact ih

/-- The `lastDateofMonth` local of `calendar()` is the standard-rules day
count of the requested month, for the ECMA-262 effective year. -/
theorem lastDateofMonth_eq (y m : Int) (h0 : 0 ≤ m) (h1 : m ≤ 11) :
    lastDateofMonth y m = daysInMonth m (twoDigitYearFix y) := by
  simp only [lastDateofMonth, newDate, JSDate.getDate]
  exact lastDate_all (twoDigitYearFix y) m h0 h1

theorem firstDayofMonth_bounds (y m : Int) :
    0 ≤ firstDayofMonth y m ∧ firstDayofMonth y m < 7 := by
  simp only [firstDayofMonth, newDate, JSDate.getDay]
  omega

/-- The weekday of the last day of the month, as `calendar()` computes it,
is determined by the weekday of the first day and the month length. -/
theorem lastDayofMonth_eq (y m : Int) :
    lastDayofMonth y m = (firstDayofMonth y m + lastDateofMonth y m - 1) % 7 := by
  simp only [lastDayofMonth, firstDayofMonth, newDate, JSDate.getDay]
  rw [makeDay_linear (twoDigitYearFix y) m (lastDateofMonth y m)]
  omega

theorem calendar_cells_length (y m dateDay : Int) (t : Today) :
    (calendar y m dateDay t).cells.length =
      (firstDayofMonth y m).toNat + ((lastDateofMonth y m).toNat +
        (6 - lastDayofMonth y m).toNat) := by
  simp only [calendar, calendarLeading, calendarActive, calendarTrailing,
    List.length_append, List.length_map, List.length_range]

/-!
## The claims

One theorem per claim of the specification, each stated over the
embedding above; theorems with hypotheses are accompanied by witnesses
instantiating them at concrete inputs.
-/

/-- C1: for every year and every month in `0..11` (and any `date`
day/reference date), the cell count of the grid produced by `calendar` is
a multiple of 7, is at least `lastDateofMonth`, is the smallest multiple
of 7 covering the `firstDayofMonth` leading cells plus all days of the
month (at least `firstDayofMonth + lastDateofMonth` and less than that
plus 7), and never exceeds 42. -/
theorem month_grid_size (y m dateDay : Int) (t : Today) (h0 : 0 ≤ m) (h1 : m ≤ 11) :
    ((calendar y m dateDay t).cells.length : Int) % 7 = 0 ∧
    lastDateofMonth y m ≤ ((calendar y m dateDay t).cells.length : Int) ∧
    firstDayofMonth y m + lastDateofMonth y m ≤ ((calendar y m dateDay t).cells.length : Int) ∧
    ((calendar y m dateDay t).cells.length : Int) < firstDayofMonth y m + lastDateofMonth y m + 7 ∧
    ((calendar y m dateDay t).cells.length : Int) ≤ 42 := by
  have hlen := calendar_cells_length y m dateDay t
  have hf := firstDayofMonth_bounds y m
  have hL := lastDateofMonth_eq y m h0 h1
  have hB := daysInMonth_bounds m (twoDigitYearFix y)
  have hld := lastDayofMonth_eq y m
  omega

theorem month_grid_size_witness :
    0 ≤ (1 : Int) ∧ (1 : Int) ≤ 11 ∧
    (((calendar 2024 1 15 ⟨2024, 1, 15⟩).cells.length : Int) % 7 = 0 ∧
     lastDateofMonth 2024 1 ≤ ((calendar 2024 1 15 ⟨2024, 1, 15⟩).cells.length : Int) ∧
     firstDayofMonth 2024 1 + lastDateofMonth 2024 1 ≤
       ((calendar 2024 1 15 ⟨2024, 1, 15⟩).cells.length : Int) ∧
     ((calendar 2024 1 15 ⟨2024, 1, 15⟩).cells.length : Int) <
       firstDayofMonth 2024 1 + lastDateofMonth 2024 1 + 7 ∧
     ((calendar 2024 1 15 ⟨2024, 1, 15⟩).cells.length : Int) ≤ 42) :=
  ⟨by decide, by decide, month_grid_size 2024 1 15 ⟨2024, 1, 15⟩ (by decide) (by decide)⟩

theorem takeWhile_append_of_all {α : Type} (p : α → Bool) (l1 l2 : List α)
    (h : ∀ a ∈ l1, p a = true) : (l1 ++ l2).takeWhile p = l1 ++ l2.takeWhile p := by
  induction l1 with
  | nil => simp
  | cons a l ih =>
    simp only [List.cons_append, List.takeWhile_cons,
      h a (List.mem_cons_self a l), ih (fun b hb => h b (List.mem_cons_of_mem a hb)), if_true]

/-- C3: for every year and every month in `0..11`, the leading inactive
cells number exactly `firstDayofMonth`, carry the labels
`lastDateofLastMonth - firstDayofMonth + 1 .. lastDateofLastMonth` in
order, are strictly ascending, and form exactly the maximal
non-current-month prefix of the produced grid. -/
theorem leading_cells_spec (y m dateDay : Int) (t : Today) (h0 : 0 ≤ m) (h1 : m ≤ 11) :
    (calendarLeading y m).length = (firstDayofMonth y m).toNat ∧
    (calendarLeading y m).map (fun c => c.dayNumber) =
      (List.range (firstDayofMonth y m).toNat).map
        (fun (k : Nat) => lastDateofLastMonth y m - firstDayofMonth y m + 1 + (k : Int)) ∧
    (calendarLeading y m).Pairwise (fun a b => a.dayNumber < b.dayNumber) ∧
    (calendar y m dateDay t).cells.takeWhile (fun c => !c.isCurrentMonth) = calendarLeading y m := by
  refine ⟨?_, ?_, ?_, ?_⟩
  · simp only [calendarLeading, List.length_map, List.length_range]
  · simp only [calendarLeading, List.map_map]
    rfl
  · refine List.pairwise_map.mpr ?_
    refine (List.pairwise_lt_range _).imp ?_
    intro a b hab
    simp only []
    omega
  · have hL := lastDateofMonth_eq y m h0 h1
    have hB := daysInMonth_bounds m (twoDigitYearFix y)
    obtain ⟨n, hn⟩ : ∃ n : Nat, (lastDateofMonth y m).toNat = n + 1 :=
      ⟨(lastDateofMonth y m).toNat - 1, by omega⟩
    simp only [calendar]
    rw [takeWhile_append_of_all]
    · have hAT : (calendarActive y m dateDay t ++ calendarTrailing y m).takeWhile
          (fun c => !c.isCurrentMonth) = [] := by
        simp only [calendarActive, hn, List.range_succ_eq_map, List.map_cons, List.cons_append,
          List.takeWhile_cons]
        simp
      rw [hAT, List.append_nil]
    · intro a ha
      simp only [calendarLeading, List.mem_map, List.mem_range] at ha
      obtain ⟨k, _, rfl⟩ := ha
      rfl

theorem leading_cells_spec_witness :
    0 ≤ (1 : Int) ∧ (1 : Int) ≤ 11 ∧
    ((calendarLeading 2024 1).length = (firstDayofMonth 2024 1).toNat ∧
     (calendarLeading 2024 1).map (fun c => c.dayNumber) =
       (List.range (firstDayofMonth 2024 1).toNat).map
         (fun (k : Nat) => lastDateofLastMonth 2024 1 - firstDayofMonth 2024 1 + 1 + (k : Int)) ∧
     (calendarLeading 2024 1).Pairwise (fun a b => a.dayNumber < b.dayNumber) ∧
     (calendar 2024 1 15 ⟨2024, 1, 15⟩).cells.takeWhile (fun c => !c.isCurrentMonth) =
       calendarLeading 2024 1) :=
  ⟨by decide, by decide, leading_cells_spec 2024 1 15 ⟨2024, 1, 15⟩ (by decide) (by decide)⟩

/-- C4 counterexample: for year 0 and month 1 the last active cell is
labelled 28 (ECMA-262 maps year 0 to 1900, which is not a leap year),
while the standard calendar rules give year 0 (divisible by 400) 29 days
in February — so the claim fails at year 0. -/
theorem active_cells_year_zero :
    ¬ ((calendarActive 0 1 15 ⟨2024, 5, 15⟩).getLast?.map (fun c => c.dayNumber) =
        some (daysInMonth 1 0)) := by decide

/-- C4 amended: for every year and every month in `0..11`, the first
active cell has `dayNumber` 1 and the last active cell's `dayNumber`
equals the month's day count under standard calendar rules applied to the
ECMA-262 effective year (`twoDigitYearFix`: years `0..99` are rendered as
`1900..1999`); in particular non-leap February 2023 has 28 active cells
and leap February 2024 has 29. -/
theorem active_cells_spec (y m dateDay : Int) (t : Today) (h0 : 0 ≤ m) (h1 : m ≤ 11) :
    (calendarActive y m dateDay t).head?.map (fun c => c.dayNumber) = some 1 ∧
    (calendarActive y m dateDay t).getLast?.map (fun c => c.dayNumber) =
      some (daysInMonth m (twoDigitYearFix y)) ∧
    (calendarActive y m dateDay t).length = (daysInMonth m (twoDigitYearFix y)).toNat ∧
    lastDateofMonth 2023 1 = 28 ∧ lastDateofMonth 2024 1 = 29 := by
  have hL := lastDateofMonth_eq y m h0 h1
  have hB := daysInMonth_bounds m (twoDigitYearFix y)
  obtain ⟨n, hn⟩ : ∃ n : Nat, (lastDateofMonth y m).toNat = n + 1 :=
    ⟨(lastDateofMonth y m).toNat - 1, by omega⟩
  refine ⟨?_, ?_, ?_, by decide, by decide⟩
  · simp only [calendarActive, hn, List.range_succ_eq_map, List.map_cons, List.head?_cons,
      Option.map_some]
    simp
  · have hval : ((n : Int) + 1) = daysInMonth m (twoDigitYearFix y) := by omega
    simp only [calendarActive, hn, List.range_succ, List.map_append, List.map_cons, List.map_nil,
      List.getLast?_concat, Option.map_some]
    rw [hval]
    rfl
  · simp only [calendarActive, List.length_map, List.length_range, hL]

theorem active_cells_spec_witness :
    0 ≤ (1 : Int) ∧ (1 : Int) ≤ 11 ∧
    ((calendarActive 2024 1 15 ⟨2024, 1, 15⟩).head?.map (fun c => c.dayNumber) = some 1 ∧
     (calendarActive 2024 1 15 ⟨2024, 1, 15⟩).getLast?.map (fun c => c.dayNumber) =
       some (daysInMonth 1 (twoDigitYearFix 2024)) ∧
     (calendarActive 2024 1 15 ⟨2024, 1, 15⟩).length = (daysInMonth 1 (twoDigitYearFix 2024)).toNat ∧
     lastDateofMonth 2023 1 = 28 ∧ lastDateofMonth 2024 1 = 29) :=
  ⟨by decide, by decide, active_cells_spec 2024 1 15 ⟨2024, 1, 15⟩ (by decide) (by decide)⟩

theorem calendarActive_filter_current (y m dateDay : Int) (t : Today) :
    (calendarActive y m dateDay t).filter (fun c => c.isCurrentMonth) =
      calendarActive y m dateDay t :=
  List.filter_eq_self.mpr (by
    intro a ha
    simp only [calendarActive, List.mem_map, List.mem_range] at ha
    obtain ⟨k, _, rfl⟩ := ha
    rfl)

theorem calendarActive_map_dayNumber (y m dateDay : Int) (t : Today) :
    (calendarActive y m dateDay t).map (fun c => c.dayNumber) =
      (List.range (lastDateofMonth y m).toNat).map (fun (k : Nat) => (k : Int) + 1) := by
  simp only [calendarActive, List.map_map]
  rfl

/-- C2 counterexample: the February 2024 grid has 35 cells, not 36 (the
claimed 33 + 3 = 36 is not even a multiple of 7): the trailing loop runs
from `lastDayofMonth = 4` (Thursday) to 5, emitting 2 cells. -/
theorem feb2024_not_36 : ¬ ((computeGrid 2024 1 ⟨2024, 1, 15⟩).cells.length = 36) := by decide

/-- C2 amended: for February 2024 (a leap year) and every reference date,
the grid has first weekday Thursday (index 4), 4 leading inactive cells
labelled 28, 29, 30, 31, 29 active cells labelled 1..29, and 2 trailing
cells padding the total from 33 up to 35 (the next multiple of 7). -/
theorem feb2024_grid (t : Today) :
    firstDayofMonth 2024 1 = 4 ∧
    (calendarLeading 2024 1).map (fun c => c.dayNumber) = [28, 29, 30, 31] ∧
    ((computeGrid 2024 1 t).cells.filter (fun c => c.isCurrentMonth)).map (fun c => c.dayNumber) =
      [1, 2, 3, 4, 5, 6, 7, 8, 9, 10, 11, 12, 13, 14, 15, 16, 17, 18, 19, 20, 21, 22,
       23, 24, 25, 26, 27, 28, 29] ∧
    (calendarTrailing 2024 1).length = 2 ∧
    (computeGrid 2024 1 t).cells.length = 35 := by
  have hbr : ¬ ((1 : Int) < 0 ∨ 11 < (1 : Int)) := by decide
  refine ⟨by decide, by decide, ?_, by decide, ?_⟩
  · simp only [computeGrid, if_neg hbr, calendar, List.filter_append,
      calendarActive_filter_current]
    have e1 : (calendarLeading 2024 1).filter (fun c => c.isCurrentMonth) = [] := by decide
    have e3 : (calendarTrailing 2024 1).filter (fun c => c.isCurrentMonth) = [] := by decide
    rw [e1, e3, List.nil_append, List.append_nil, calendarActive_map_dayNumber]
    decide
  · simp only [computeGrid, if_neg hbr]
    rw [calendar_cells_length]
    decide

theorem countP_day_match_le_one (n : Nat) (v : Int) :
    (List.range n).countP (fun (k : Nat) => ((k : Int) + 1 == v)) ≤ 1 := by
  induction n with
  | zero => simp
  | succ n ih =>
    rw [List.range_succ, List.countP_append]
    by_cases h : ((n : Int) + 1 == v) = true
    · have h0 : (List.range n).countP (fun (k : Nat) => ((k : Int) + 1 == v)) = 0 := by
        rw [List.countP_eq_zero]
        intro k hk
        simp only [List.mem_range] at hk
        simp only [beq_iff_eq] at h ⊢
        omega
      simp [h0, h, List.countP_cons]
    · have hpn : ((n : Int) + 1 == v) = false := by
        revert h; cases ((n : Int) + 1 == v) <;> simp
      simp only [List.countP_cons, List.countP_nil, hpn, Bool.false_eq_true, if_false]
      omega

theorem countP_le_countP {α : Type} (l : List α) (p q : α → Bool)
    (h : ∀ a ∈ l, p a = true → q a = true) : l.countP p ≤ l.countP q := by
  induction l with
  | nil => simp
  | cons a l ih =>
    have hl := ih (fun b hb hp => h b (List.mem_cons_of_mem a hb) hp)
    by_cases hpa : p a = true
    · simp only [List.countP_cons, hpa, h a (List.mem_cons_self a l) hpa, if_true]
      omega
    · have hpa0 : p a = false := by revert hpa; cases p a <;> simp
      simp only [List.countP_cons, hpa0, Bool.false_eq_true, if_false]
      by_cases hqa : q a = true <;> simp only [hqa, if_true, Bool.false_eq_true, if_false] <;> omega

/-- C5: for every year, month, `date` day and reference date, at most one
cell of the produced grid has `isToday = true`, no inactive cell has it,
and some cell has it only when the grid's year and month equal the
reference date's year and month. -/
theorem today_highlight (y m dateDay : Int) (t : Today) :
    ((calendar y m dateDay t).cells.filter (fun c => c.isToday)).length ≤ 1 ∧
    (calendar y m dateDay t).cells.filter (fun c => c.isToday && !c.isCurrentMonth) = [] ∧
    ((calendar y m dateDay t).cells.any (fun c => c.isToday) = true →
      y = t.year ∧ m = t.month) := by
  refine ⟨?_, ?_, ?_⟩
  · have e1 : (calendarLeading y m).filter (fun c => c.isToday) = [] := by
      rw [List.filter_eq_nil_iff]
      intro a ha
      simp only [calendarLeading, List.mem_map, List.mem_range] at ha
      obtain ⟨k, _, rfl⟩ := ha
      simp
    have e3 : (calendarTrailing y m).filter (fun c => c.isToday) = [] := by
      rw [List.filter_eq_nil_iff]
      intro a ha
      simp only [calendarTrailing, List.mem_map, List.mem_range] at ha
      obtain ⟨k, _, rfl⟩ := ha
      simp
    have hA : ((calendarActive y m dateDay t).filter (fun c => c.isToday)).length ≤ 1 := by
      rw [← List.countP_eq_length_filter]
      simp only [calendarActive, List.countP_map]
      refine le_trans
        (countP_le_countP _ _ (fun (k : Nat) => ((k : Int) + 1 == dateDay)) ?_)
        (countP_day_match_le_one _ dateDay)
      intro k _ hk
      simp only [Function.comp, Bool.and_eq_true] at hk
      exact hk.1.1
    simp only [calendar, List.filter_append, List.length_append, e1, e3, List.length_nil]
    omega
  · rw [List.filter_eq_nil_iff]
    intro a ha
    simp only [calendar, List.mem_append, calendarLeading, calendarActive, calendarTrailing,
      List.mem_map, List.mem_range] at ha
    rcases ha with (⟨k, _, rfl⟩ | ⟨k, _, rfl⟩ | ⟨k, _, rfl⟩) <;> simp
  · intro h
    simp only [calendar, List.any_append, Bool.or_eq_true, calendarLeading, calendarActive,
      calendarTrailing, List.any_eq_true, List.mem_map, List.mem_range] at h
    rcases h with (h | h | h)
    · obtain ⟨c, ⟨k, _, hc⟩, hk⟩ := h
      rw [← hc] at hk
      simp at hk
    · obtain ⟨c, ⟨k, _, hc⟩, hk⟩ := h
      rw [← hc] at hk
      simp only [Bool.and_eq_true, beq_iff_eq] at hk
      exact ⟨hk.2, hk.1.2⟩
    · obtain ⟨c, ⟨k, _, hc⟩, hk⟩ := h
      rw [← hc] at hk
      simp at hk

theorem today_highlight_witness :
    ((calendar 2024 1 15 ⟨2024, 1, 15⟩).cells.filter (fun c => c.isToday)).length ≤ 1 ∧
    (calendar 2024 1 15 ⟨2024, 1, 15⟩).cells.filter (fun c => c.isToday && !c.isCurrentMonth) = [] ∧
    ((calendar 2024 1 15 ⟨2024, 1, 15⟩).cells.any (fun c => c.isToday) = true →
      (2024 : Int) = 2024 ∧ (1 : Int) = 1) :=
  today_highlight 2024 1 15 ⟨2024, 1, 15⟩

theorem newDate_dec2024 : ∀ n : Nat, n < 31 →
    (newDate 2024 12 ((n : Int) + 1)).getFullYear = 2025 ∧
    (newDate 2024 12 ((n : Int) + 1)).getMonth = 0 ∧
    (newDate 2024 12 ((n : Int) + 1)).getDate = (n : Int) + 1 := by decide

theorem newDate_neg1_2024 : ∀ n : Nat, n < 31 →
    (newDate 2024 (-1) ((n : Int) + 1)).getFullYear = 2023 ∧
    (newDate 2024 (-1) ((n : Int) + 1)).getMonth = 11 ∧
    (newDate 2024 (-1) ((n : Int) + 1)).getDate = (n : Int) + 1 := by decide

/-- C6: month inputs outside `0..11` are normalized by the source's
prev/next handler through a `Date` round trip (equivalent to carry/borrow
into the year), and the whole resulting grid — cells and label — is
identical to the normalized call: `computeGrid 2024 12` equals
`computeGrid 2025 0` and `computeGrid 2024 (-1)` equals
`computeGrid 2023 11`, for every valid reference date. -/
theorem month_normalization (t : Today) (h1 : 1 ≤ t.day) (h2 : t.day ≤ 31) :
    computeGrid 2024 12 t = computeGrid 2025 0 t ∧
    computeGrid 2024 (-1) t = computeGrid 2023 11 t := by
  obtain ⟨n, hn, hd⟩ : ∃ n : Nat, n < 31 ∧ t.day = (n : Int) + 1 :=
    ⟨(t.day - 1).toNat, by omega, by omega⟩
  constructor
  · have hkey := newDate_dec2024 n hn
    simp only [computeGrid, if_pos (by decide : (12 : Int) < 0 ∨ 11 < (12 : Int)),
      if_neg (by decide : ¬((0 : Int) < 0 ∨ 11 < (0 : Int))), hd, hkey.1, hkey.2.1, hkey.2.2]
  · have hkey := newDate_neg1_2024 n hn
    simp only [computeGrid, if_pos (by decide : (-1 : Int) < 0 ∨ 11 < (-1 : Int)),
      if_neg (by decide : ¬((11 : Int) < 0 ∨ 11 < (11 : Int))), hd, hkey.1, hkey.2.1, hkey.2.2]

theorem month_normalization_witness :
    1 ≤ (⟨2025, 0, 15⟩ : Today).day ∧ (⟨2025, 0, 15⟩ : Today).day ≤ 31 ∧
    (computeGrid 2024 12 ⟨2025, 0, 15⟩ = computeGrid 2025 0 ⟨2025, 0, 15⟩ ∧
     computeGrid 2024 (-1) ⟨2025, 0, 15⟩ = computeGrid 2023 11 ⟨2025, 0, 15⟩) :=
  ⟨by decide, by decide, month_normalization ⟨2025, 0, 15⟩ (by decide) (by decide)⟩

/-- C8: the grid computation is deterministic in `(year, month, today)`:
two runs with the same inputs produce identical grids, and the result
depends on the clock only through the explicit reference date's year,
month and day fields. -/
theorem grid_deterministic (y m : Int) (t u : Today)
    (hy : t.year = u.year) (hm : t.month = u.month) (hd : t.day = u.day) :
    computeGrid y m t = computeGrid y m u := by
  cases t
  cases u
  simp only [] at hy hm hd
  subst hy
  subst hm
  subst hd
  rfl

theorem grid_deterministic_witness :
    computeGrid 2024 1 ⟨2024, 1, 15⟩ = computeGrid 2024 1 ⟨2024, 1, 15⟩ :=
  grid_deterministic 2024 1 ⟨2024, 1, 15⟩ ⟨2024, 1, 15⟩ rfl rfl rfl

/-- C9: the two calendar implementations are not extensionally
equivalent: for some year and month in `0..11` the day-cell label
sequence of the icon-driven `calendar` differs from that of the
table-driven `showCalendar` (the latter leaves its leading cells
unlabelled). -/
theorem two_implementations_differ :
    ∃ y m : Int, 0 ≤ m ∧ m ≤ 11 ∧
      (calendar y m 15 ⟨2024, 5, 15⟩).cells.map (fun c => some c.dayNumber) ≠
        (showCalendar m y ⟨2024, 5, 15⟩).map (fun c => c.content) :=
  ⟨2024, 1, by decide, by decide, by decide⟩

theorem getDayN_bound (d : Option Int) (v : Int) (h : getDayN d = some v) :
    0 ≤ v ∧ v < 7 := by
  rcases d with _ | z
  · simp only [getDayN, Option.map_none'] at h
    exact Option.noConfusion h
  · simp only [getDayN, Option.map_some'] at h
    injection h with h
    omega

theorem lastDateofMonthN_some (y m lv : Int) (h0 : 0 ≤ m) (h1 : m ≤ 11)
    (h : lastDateofMonthN y m = some lv) : lv = daysInMonth m (twoDigitYearFix y) := by
  simp only [lastDateofMonthN, getDateN, newDateN, Option.some_bind, timeClipDays] at h
  split at h
  · simp only [Option.map_some'] at h
    have hd := lastDate_all (twoDigitYearFix y) m h0 h1
    injection h with h
    omega
  · simp only [Option.map_none'] at h
    exact Option.noConfusion h

theorem lastDayofMonthN_rel (y m fv Lv lv : Int)
    (hf : firstDayofMonthN y m = some fv)
    (hL : lastDateofMonthN y m = some Lv)
    (hld : lastDayofMonthN y m = some lv) :
    lv = (fv + Lv - 1) % 7 := by
  simp only [firstDayofMonthN, getDayN, newDateN, Option.some_bind, timeClipDays] at hf
  split at hf
  · simp only [Option.map_some'] at hf
    injection hf with hf
    simp only [lastDayofMonthN, hL, getDayN, newDateN, Option.some_bind, timeClipDays] at hld
    split at hld
    · simp only [Option.map_some'] at hld
      injection hld with hld
      rw [makeDay_linear (twoDigitYearFix y) m Lv] at hld
      omega
    · simp only [Option.map_none'] at hld
      exact Option.noConfusion hld
  · simp only [Option.map_none'] at hf
    exact Option.noConfusion hf

set_option maxHeartbeats 2000000 in
/-- C7 counterexample: on the out-of-representable-range input year
400000 (all four `Date`s exceed the ±8.64e15 ms `TimeClip` limit), the
code does not fail with any `InvalidDateInput` condition — it silently
produces a degenerate grid with a label and no cells. -/
theorem out_of_range_silent :
    calendarN 400000 0 (some 15) ⟨2024, 5, 15⟩ =
      { label := "January 400000", cells := [] } := by decide

set_option maxHeartbeats 2000000 in
/-- C7 amended: the grid computation is total over integer inputs — it
never throws and always produces a grid of at most 42 cells for months in
`0..11` — but it has no failure condition at all: out-of-representable-
range input (year 400000) yields a grid with an empty cell list instead
of an `InvalidDateInput` failure. -/
theorem total_no_failure (y m : Int) (dateDay : Option Int) (t : Today)
    (h0 : 0 ≤ m) (h1 : m ≤ 11) :
    (calendarN y m dateDay t).cells.length ≤ 42 ∧
    (calendarN 400000 0 (some 15) t).cells = [] := by
  constructor
  · have hdm := daysInMonth_bounds m (twoDigitYearFix y)
    rcases hf : firstDayofMonthN y m with _ | fv <;>
      rcases hL : lastDateofMonthN y m with _ | Lv <;>
        rcases hld : lastDayofMonthN y m with _ | lv <;>
          simp only [calendarN, calendarLeadingN, calendarActiveN, calendarTrailingN, hf, hL, hld,
            List.length_append, List.length_map, List.length_range, List.length_nil]
    · omega
    · have hlvb := getDayN_bound _ _ hld
      omega
    · have hLv := lastDateofMonthN_some y m Lv h0 h1 hL
      omega
    · have hLv := lastDateofMonthN_some y m Lv h0 h1 hL
      have hlvb := getDayN_bound _ _ hld
      omega
    · have hfb := getDayN_bound _ _ hf
      omega
    · have hfb := getDayN_bound _ _ hf
      have hlvb := getDayN_bound _ _ hld
      omega
    · have hfb := getDayN_bound _ _ hf
      have hLv := lastDateofMonthN_some y m Lv h0 h1 hL
      omega
    · have hfb := getDayN_bound _ _ hf
      have hLv := lastDateofMonthN_some y m Lv h0 h1 hL
      have hrel := lastDayofMonthN_rel y m fv Lv lv hf hL hld
      omega
  · rfl

theorem total_no_failure_witness :
    0 ≤ (1 : Int) ∧ (1 : Int) ≤ 11 ∧
    ((calendarN 2024 1 (some 15) ⟨2024, 1, 15⟩).cells.length ≤ 42 ∧
     (calendarN 400000 0 (some 15) ⟨2024, 1, 15⟩).cells = []) :=
  ⟨by decide, by decide, total_no_failure 2024 1 (some 15) ⟨2024, 1, 15⟩ (by decide) (by decide)⟩
